import Mathlib

/-!
Verification development for the HTML-CSS-JS data-validation repository.

The repository ships three per-language dataset validators (JavaScript,
CSS, HTML) plus query facades.  This file gives a shallow embedding of
the relevant source functions:

- `src/Javascript/scripts/validate-data.js` (class JavaScriptDataValidator)
- `src/CSS/scripts/validate-data.js` (function validateCSSData)
- the JavaScript query facade (class JavaScriptValidator)
- `src/CSS/src/CSSValidator-new.js` (class CSSValidator)
- `src/HTML/src/HTMLValidator.js` (class HTMLValidator)

JSON values are modeled with Lean structures whose fields are `Option`
where the JavaScript code distinguishes a present value from
`undefined`.  JavaScript objects used as string-keyed maps are modeled
as association lists `List (String × α)` in insertion order
(`Object.keys`/`Object.entries` iterate in that order); maps whose
values the code never reads are modeled by their key lists.
JavaScript numbers produced by dividing small integers are modeled as
exact rationals `ℚ` (for the magnitudes occurring here, IEEE double
comparison against the literal thresholds 0.5 and 0.6 agrees with the
exact rational comparison).  Errors and warnings pushed by the
validation scripts are modeled by inductive `Finding` types whose
constructors carry exactly the data interpolated into the source
message strings.
-/

/-- Model of the JavaScript `String.prototype.toLowerCase` restricted to the
ASCII range (all names in the datasets are ASCII): each character in `A`..`Z`
is shifted to its lowercase counterpart, all other characters are kept. -/
def charLower (c : Char) : Char :=
  if 65 ≤ c.toNat ∧ c.toNat ≤ 90 then Char.ofNat (c.toNat + 32) else c

/-- Model of the JavaScript `s.toLowerCase()` (ASCII, see `charLower`). -/
def jsToLowerCase (s : String) : String := ⟨s.data.map charLower⟩

/-- Boolean test that the character list `l` begins with the pattern `p`. -/
def leadsWith : List Char → List Char → Bool
  | _, [] => true
  | [], _ :: _ => false
  | c :: cs, p :: ps => c == p && leadsWith cs ps

/-- Model of the JavaScript `s.startsWith(pre)`. -/
def jsStartsWith (s pre : String) : Bool := leadsWith s.data pre.data

/-- Model of the JavaScript truthiness test `!x` for an optional string:
`undefined` and the empty string are falsy. -/
def jsFalsy (o : Option String) : Bool :=
  match o with
  | none => true
  | some s => s.isEmpty

/-- Model of the regular-expression test `/^[A-Z]/.test(s)`. -/
def startsWithUpperAZ (s : String) : Bool :=
  match s.data with
  | [] => false
  | c :: _ => decide (65 ≤ c.toNat ∧ c.toNat ≤ 90)

/-- Model of the regular-expression test `/[A-Z]/.test(s)`. -/
def hasUpperAZ (s : String) : Bool :=
  s.data.any fun c => decide (65 ≤ c.toNat ∧ c.toNat ≤ 90)

/-- Model of the semantic-version prefix test used on `metadata.version`:
the string must start with digits, a dot, digits, a dot, digits. -/
def semverLike (s : String) : Bool :=
  match s.data.span Char.isDigit with
  | (d1, rest1) =>
    match rest1 with
    | '.' :: t1 =>
      match t1.span Char.isDigit with
      | (d2, rest2) =>
        match rest2 with
        | '.' :: t2 =>
          match t2.span Char.isDigit with
          | (d3, _) => !d1.isEmpty && !d2.isEmpty && !d3.isEmpty
        | _ => false
    | _ => false

/-- Modelled from the spec: the host `Date.parse` (not part of the
repository code) must accept `metadata.lastUpdated`; simplified here to an
ISO-like prefix check (four digits, dash, two digits, dash, two digits).
No claim in this development depends on the exact set of accepted dates. -/
def jsDateParsable (s : String) : Bool :=
  match s.data with
  | y1 :: y2 :: y3 :: y4 :: '-' :: m1 :: m2 :: '-' :: d1 :: d2 :: _ =>
    [y1, y2, y3, y4, m1, m2, d1, d2].all Char.isDigit
  | _ => false

/-- Lookup in a string-keyed association list, as JavaScript property access
`m[k]` on a plain object (first binding wins; real JS objects have unique
keys). -/
def lookupMap {α : Type} (m : List (String × α)) (k : String) : Option α :=
  (m.find? fun p => p.1 == k).map Prod.snd

/-- The key list of a string-keyed map, as JavaScript `Object.keys(m)`. -/
def keysOf {α : Type} (m : List (String × α)) : List String := m.map Prod.fst

/-- A method / static method / property / attribute record
(`{name, description, static?}`) of the JavaScript dataset. The `static`
flag models the truthiness of `method.static` (absent means `false`). -/
structure JSChild where
  name : Option String
  description : Option String
  static : Bool
deriving DecidableEq

/-- An object entry of the JavaScript dataset
(`data.objects[key] = {name, description, category?, methods, staticMethods, properties}`). -/
structure JSObject where
  name : Option String
  description : Option String
  category : Option String
  methods : Option (List (String × JSChild))
  staticMethods : Option (List (String × JSChild))
  properties : Option (List (String × JSChild))
deriving DecidableEq

/-- A category entry of the JavaScript dataset.  The three member maps are
modeled by their key lists, since the source only tests their presence and
reads `Object.keys` of them. -/
structure JSCategory where
  name : Option String
  subcategories : Option (List String)
  objects : Option (List String)
  keywords : Option (List String)
deriving DecidableEq

/-- A keyword entry of the JavaScript dataset. -/
structure JSKeyword where
  name : Option String
  description : Option String
  category : Option String
  attributes : Option (List (String × JSChild))
deriving DecidableEq

/-- The metadata block of the JavaScript dataset. -/
structure JSMetadata where
  version : Option String
  lastUpdated : Option String
  totalCategories : Option Nat
  totalObjects : Option Nat
  totalKeywords : Option Nat
  totalMethods : Option Nat
deriving DecidableEq

/-- The JavaScript dataset (`js-language.json`): each top-level section is
either present with the modeled shape or absent. -/
structure JSData where
  categories : Option (List (String × JSCategory))
  objects : Option (List (String × JSObject))
  keywords : Option (List (String × JSKeyword))
  metadata : Option JSMetadata
deriving DecidableEq

/-- Findings pushed into `this.errors` / `this.warnings` by
`JavaScriptDataValidator`; each constructor corresponds to one `push` site
and carries the values interpolated into the message string there. -/
inductive Finding where
  | missingRequiredField (field : String)
  | shouldBeObject (field : String)
  | categoryMissingName (key : String)
  | categoryNameMismatch (key : String) (stored : Option String)
  | categoryMissingField (key field : String)
  | objectMissingField (key field : String)
  | objectNameMismatch (key : String) (stored : Option String)
  | objectUppercaseWarning (key : String)
  | objectShortDescription (key : String)
  | methodMissingFields (objKey methodKey : String)
  | methodNameMismatch (objKey methodKey : String) (stored : Option String)
  | staticMethodMissingFields (objKey methodKey : String)
  | staticMethodNameMismatch (objKey methodKey : String) (stored : Option String)
  | staticFlagWarning (objKey methodKey : String)
  | propertyMissingFields (objKey propKey : String)
  | propertyNameMismatch (objKey propKey : String) (stored : Option String)
  | objectBadCategory (key cat : String)
  | keywordMissingField (key field : String)
  | keywordNameMismatch (key : String) (stored : Option String)
  | keywordUppercaseWarning (key : String)
  | keywordShortDescription (key : String)
  | attributeMissingName (kwKey attrKey : String)
  | attributeNameMismatch (kwKey attrKey : String) (stored : Option String)
  | keywordBadCategory (key cat : String)
  | metadataMissingField (field : String)
  | categoryCountMismatch (claimed : Option Nat) (actual : Nat)
  | objectCountMismatch (claimed : Option Nat) (actual : Nat)
  | keywordCountMismatch (claimed : Option Nat) (actual : Nat)
  | methodCountMismatch (claimed : Option Nat) (actual : Nat)
  | versionFormatWarning (version : Option String)
  | invalidLastUpdated (value : Option String)
  | danglingObjectRef (categoryKey objectName : String)
  | danglingKeywordRef (categoryKey keywordName : String)
  | duplicateMethods (objKey : String) (names : List String)
  | emptyObjectWarning (key : String)
deriving DecidableEq

/-- Embedding of `validateStructure`: the four required sections must be
present; the `typeof` checks coincide with presence in this model, where a
present section always has the object shape. Produces errors only. -/
def validateStructure (d : JSData) : List Finding :=
  (if d.categories.isNone then [Finding.missingRequiredField "categories"] else []) ++
  (if d.objects.isNone then [Finding.missingRequiredField "objects"] else []) ++
  (if d.keywords.isNone then [Finding.missingRequiredField "keywords"] else []) ++
  (if d.metadata.isNone then [Finding.missingRequiredField "metadata"] else []) ++
  (if d.categories.isNone then [Finding.shouldBeObject "categories"] else []) ++
  (if d.objects.isNone then [Finding.shouldBeObject "objects"] else []) ++
  (if d.keywords.isNone then [Finding.shouldBeObject "keywords"] else []) ++
  (if d.metadata.isNone then [Finding.shouldBeObject "metadata"] else [])

/-- Embedding of `validateCategories`. Produces errors only. -/
def validateCategories (cats : List (String × JSCategory)) : List Finding :=
  cats.flatMap fun p =>
    (if jsFalsy p.2.name then [Finding.categoryMissingName p.1] else []) ++
    (if p.2.name ≠ some p.1 then [Finding.categoryNameMismatch p.1 p.2.name] else []) ++
    (if p.2.subcategories.isNone then [Finding.categoryMissingField p.1 "subcategories"] else []) ++
    (if p.2.objects.isNone then [Finding.categoryMissingField p.1 "objects"] else []) ++
    (if p.2.keywords.isNone then [Finding.categoryMissingField p.1 "keywords"] else [])

/-- Errors produced by `validateObjects` for one entry `(key, object)`. -/
def validateObjectEntryErrors (cats : List (String × JSCategory))
    (key : String) (o : JSObject) : List Finding :=
  (if o.name.isNone then [Finding.objectMissingField key "name"] else []) ++
  (if o.description.isNone then [Finding.objectMissingField key "description"] else []) ++
  (if o.methods.isNone then [Finding.objectMissingField key "methods"] else []) ++
  (if o.staticMethods.isNone then [Finding.objectMissingField key "staticMethods"] else []) ++
  (if o.properties.isNone then [Finding.objectMissingField key "properties"] else []) ++
  (if o.name ≠ some key then [Finding.objectNameMismatch key o.name] else []) ++
  ((o.methods.getD []).flatMap fun q =>
    (if jsFalsy q.2.name || jsFalsy q.2.description then
      [Finding.methodMissingFields key q.1] else []) ++
    (if q.2.name ≠ some q.1 then [Finding.methodNameMismatch key q.1 q.2.name] else [])) ++
  ((o.staticMethods.getD []).flatMap fun q =>
    (if jsFalsy q.2.name || jsFalsy q.2.description then
      [Finding.staticMethodMissingFields key q.1] else []) ++
    (if q.2.name ≠ some q.1 then [Finding.staticMethodNameMismatch key q.1 q.2.name] else [])) ++
  ((o.properties.getD []).flatMap fun q =>
    (if jsFalsy q.2.name || jsFalsy q.2.description then
      [Finding.propertyMissingFields key q.1] else []) ++
    (if q.2.name ≠ some q.1 then [Finding.propertyNameMismatch key q.1 q.2.name] else [])) ++
  (match o.category with
   | some c => if !c.isEmpty && (lookupMap cats c).isNone then
       [Finding.objectBadCategory key c] else []
   | none => [])

/-- Warnings produced by `validateObjects` for one entry `(key, object)`. -/
def validateObjectEntryWarnings (key : String) (o : JSObject) : List Finding :=
  (if key ≠ "e" ∧ ¬ startsWithUpperAZ key then [Finding.objectUppercaseWarning key] else []) ++
  (if jsFalsy o.description || (o.description.getD "").length < 10 then
    [Finding.objectShortDescription key] else []) ++
  ((o.staticMethods.getD []).flatMap fun q =>
    if ¬ q.2.static then [Finding.staticFlagWarning key q.1] else [])

/-- Embedding of `validateObjects` (errors, warnings). -/
def validateObjects (cats : List (String × JSCategory))
    (objs : List (String × JSObject)) : List Finding × List Finding :=
  (objs.flatMap fun p => validateObjectEntryErrors cats p.1 p.2,
   objs.flatMap fun p => validateObjectEntryWarnings p.1 p.2)

/-- Errors produced by `validateKeywords` for one entry `(key, keyword)`. -/
def validateKeywordEntryErrors (cats : List (String × JSCategory))
    (key : String) (k : JSKeyword) : List Finding :=
  (if k.name.isNone then [Finding.keywordMissingField key "name"] else []) ++
  (if k.description.isNone then [Finding.keywordMissingField key "description"] else []) ++
  (if k.attributes.isNone then [Finding.keywordMissingField key "attributes"] else []) ++
  (if k.name ≠ some key then [Finding.keywordNameMismatch key k.name] else []) ++
  ((k.attributes.getD []).flatMap fun q =>
    (if jsFalsy q.2.name then [Finding.attributeMissingName key q.1] else []) ++
    (if q.2.name ≠ some q.1 then [Finding.attributeNameMismatch key q.1 q.2.name] else [])) ++
  (match k.category with
   | some c => if !c.isEmpty && (lookupMap cats c).isNone then
       [Finding.keywordBadCategory key c] else []
   | none => [])

/-- Warnings produced by `validateKeywords` for one entry `(key, keyword)`. -/
def validateKeywordEntryWarnings (key : String) (k : JSKeyword) : List Finding :=
  (if hasUpperAZ key then [Finding.keywordUppercaseWarning key] else []) ++
  (if jsFalsy k.description || (k.description.getD "").length < 10 then
    [Finding.keywordShortDescription key] else [])

/-- Embedding of `validateKeywords` (errors, warnings). -/
def validateKeywords (cats : List (String × JSCategory))
    (kws : List (String × JSKeyword)) : List Finding × List Finding :=
  (kws.flatMap fun p => validateKeywordEntryErrors cats p.1 p.2,
   kws.flatMap fun p => validateKeywordEntryWarnings p.1 p.2)

/-- The recomputed method total of `validateMetadata`: the loop
`actualMethods += keys(object.methods || {}).length + keys(object.staticMethods || {}).length`
over every object entry. -/
def jsActualMethods (objs : List (String × JSObject)) : Nat :=
  objs.foldl (fun acc p =>
    acc + (keysOf (p.2.methods.getD [])).length + (keysOf (p.2.staticMethods.getD [])).length) 0

/-- Embedding of `validateMetadata` (errors, warnings). The four totals are
compared with `!==`, so an absent total also counts as a mismatch. -/
def validateMetadata (md : JSMetadata) (cats : List (String × JSCategory))
    (objs : List (String × JSObject)) (kws : List (String × JSKeyword)) :
    List Finding × List Finding :=
  let errors :=
    (if md.version.isNone then [Finding.metadataMissingField "version"] else []) ++
    (if md.lastUpdated.isNone then [Finding.metadataMissingField "lastUpdated"] else []) ++
    (if md.totalCategories.isNone then [Finding.metadataMissingField "totalCategories"] else []) ++
    (if md.totalObjects.isNone then [Finding.metadataMissingField "totalObjects"] else []) ++
    (if md.totalKeywords.isNone then [Finding.metadataMissingField "totalKeywords"] else []) ++
    (if md.totalMethods.isNone then [Finding.metadataMissingField "totalMethods"] else []) ++
    (if md.totalCategories ≠ some cats.length then
      [Finding.categoryCountMismatch md.totalCategories cats.length] else []) ++
    (if md.totalObjects ≠ some objs.length then
      [Finding.objectCountMismatch md.totalObjects objs.length] else []) ++
    (if md.totalKeywords ≠ some kws.length then
      [Finding.keywordCountMismatch md.totalKeywords kws.length] else []) ++
    (if md.totalMethods ≠ some (jsActualMethods objs) then
      [Finding.methodCountMismatch md.totalMethods (jsActualMethods objs)] else []) ++
    (if !(jsDateParsable (md.lastUpdated.getD "undefined")) then
      [Finding.invalidLastUpdated md.lastUpdated] else [])
  let warnings :=
    if !(semverLike (md.version.getD "undefined")) then
      [Finding.versionFormatWarning md.version] else []
  (errors, warnings)

/-- Embedding of the JavaScript duplicate filter
`allMethods.filter((method, index) => allMethods.indexOf(method) !== index)`. -/
def jsDuplicates (l : List String) : List String :=
  (l.enum.filter fun p => decide (l.indexOf p.2 ≠ p.1)).map Prod.snd

/-- Dangling-reference errors of `validateConsistency` for one category
entry: member object names absent from the objects collection, then member
keyword names absent from the keywords collection. -/
def consistencyDanglingEntry (objs : List (String × JSObject))
    (kws : List (String × JSKeyword)) (key : String) (c : JSCategory) : List Finding :=
  (((c.objects.getD []).filter fun n => (lookupMap objs n).isNone).map fun n =>
    Finding.danglingObjectRef key n) ++
  (((c.keywords.getD []).filter fun n => (lookupMap kws n).isNone).map fun n =>
    Finding.danglingKeywordRef key n)

/-- Duplicate-method error of `validateConsistency` for one object entry. -/
def consistencyDupEntry (key : String) (o : JSObject) : List Finding :=
  let allM := keysOf (o.methods.getD []) ++ keysOf (o.staticMethods.getD [])
  let d := jsDuplicates allM
  if 0 < d.length then [Finding.duplicateMethods key d] else []

/-- Empty-object warning of `validateConsistency` for one object entry. -/
def consistencyEmptyEntry (key : String) (o : JSObject) : List Finding :=
  if (keysOf (o.methods.getD [])).length = 0 ∧
     (keysOf (o.staticMethods.getD [])).length = 0 ∧
     (keysOf (o.properties.getD [])).length = 0 then
    [Finding.emptyObjectWarning key] else []

/-- Embedding of `validateConsistency` (errors, warnings): dangling
category references, duplicate method names per object, and the
empty-object warning. -/
def validateConsistency (cats : List (String × JSCategory))
    (objs : List (String × JSObject)) (kws : List (String × JSKeyword)) :
    List Finding × List Finding :=
  ((cats.flatMap fun p => consistencyDanglingEntry objs kws p.1 p.2) ++
    (objs.flatMap fun p => consistencyDupEntry p.1 p.2),
   objs.flatMap fun p => consistencyEmptyEntry p.1 p.2)

/-- State of a completed `JavaScriptDataValidator.validate()` run. -/
structure JSRunState where
  errors : List Finding
  warnings : List Finding
deriving DecidableEq

/-- Embedding of the `validate()` pipeline.  The six rule groups run in
sequence and each appends to the shared `errors` / `warnings` lists.  When
any of the four top-level sections is absent, the run crashes with a
`TypeError` (`Object.entries(undefined)` or a property read on `undefined`)
before `reportResults` is reached; this is modeled as `none`. -/
def jsValidate (d : JSData) : Option JSRunState :=
  match d.categories, d.objects, d.keywords, d.metadata with
  | some cats, some objs, some kws, some md =>
    some
      { errors :=
          validateStructure d ++
          validateCategories cats ++
          (validateObjects cats objs).1 ++
          (validateKeywords cats kws).1 ++
          (validateMetadata md cats objs kws).1 ++
          (validateConsistency cats objs kws).1,
        warnings :=
          (validateObjects cats objs).2 ++
          (validateKeywords cats kws).2 ++
          (validateMetadata md cats objs kws).2 ++
          (validateConsistency cats objs kws).2 }
  | _, _, _, _ => none

/-- Embedding of the exit decision of `reportResults`: the process exits
with code 1 exactly when `this.errors.length > 0`; warnings are printed but
never affect the exit code. -/
def jsReportExitCode (errors warnings : List Finding) : Nat :=
  if errors.length > 0 then 1 else 0

/-- A property record of the CSS dataset (`{name, syntax, isVendorPrefix,
isCustomProperty}`; the syntax string is stored in `propSyntax`). -/
structure CSSProp where
  name : Option String
  propSyntax : Option String
  isVendorPrefix : Bool
  isCustomProperty : Bool
deriving DecidableEq

/-- A type record of the CSS dataset (`{name, definition}`). -/
structure CSSTypeRec where
  name : Option String
  definition : Option String
deriving DecidableEq

/-- A function record of the CSS dataset (`{syntax, parameters}`). -/
structure CSSFunctionRec where
  propSyntax : Option String
  parameters : Option (List String)
deriving DecidableEq

/-- The `categories` section of the CSS dataset.  `selectors` and `atRules`
are modeled by `Option Unit` because the embedded operations only test
their presence. -/
structure CSSCategories where
  properties : Option (List (String × List (String × CSSProp)))
  types : Option (List (String × List (String × CSSTypeRec)))
  selectors : Option Unit
  functions : Option (List (String × List (String × CSSFunctionRec)))
  atRules : Option Unit
deriving DecidableEq

/-- The `statistics` section of the CSS dataset. -/
structure CSSStats where
  totalProperties : Option Nat
  totalTypes : Option Nat
  totalSelectors : Option Nat
  totalFunctions : Option Nat
  totalAtRules : Option Nat
deriving DecidableEq

/-- The CSS dataset (`css-language.json`).  `metadata` is modeled by
`Option Unit` because `validateCSSData` only tests its presence. -/
structure CSSData where
  metadata : Option Unit
  categories : Option CSSCategories
  statistics : Option CSSStats
deriving DecidableEq

/-- Findings pushed by `validateCSSData`; one constructor per `push` site. -/
inductive CSSFinding where
  | missingSection (section_ : String)
  | missingCategory (name : String)
  | propMissingFields (propName : String)
  | propNameMismatch (propName : String) (stored : Option String)
  | propCountMismatch (claimed : Option Nat) (actual : Nat)
  | typeMissingFields (typeName : String)
  | typeCountMismatch (claimed : Option Nat) (actual : Nat)
  | invalidStat (name : String)
deriving DecidableEq

/-- Result of a `validateCSSData()` call: the two finding lists in their
final state and the returned boolean. -/
structure CSSRun where
  errors : List CSSFinding
  warnings : List CSSFinding
  valid : Bool
deriving DecidableEq

/-- Errors of the per-property loop of `validateCSSData`. -/
def cssPropFieldErrors (pcs : List (String × List (String × CSSProp))) : List CSSFinding :=
  pcs.flatMap fun cat => cat.2.flatMap fun q =>
    if jsFalsy q.2.name || jsFalsy q.2.propSyntax then
      [CSSFinding.propMissingFields q.1] else []

/-- Warnings of the per-property loop of `validateCSSData`. -/
def cssPropNameWarnings (pcs : List (String × List (String × CSSProp))) : List CSSFinding :=
  pcs.flatMap fun cat => cat.2.flatMap fun q =>
    if q.2.name ≠ some q.1 then [CSSFinding.propNameMismatch q.1 q.2.name] else []

/-- The `propertyCount` accumulator of `validateCSSData`. -/
def cssPropCount (pcs : List (String × List (String × CSSProp))) : Nat :=
  pcs.foldl (fun acc cat => acc + cat.2.length) 0

/-- Errors of the per-type loop of `validateCSSData`. -/
def cssTypeFieldErrors (tcs : List (String × List (String × CSSTypeRec))) : List CSSFinding :=
  tcs.flatMap fun cat => cat.2.flatMap fun q =>
    if jsFalsy q.2.name || jsFalsy q.2.definition then
      [CSSFinding.typeMissingFields q.1] else []

/-- The `typeCount` accumulator of `validateCSSData`. -/
def cssTypeCount (tcs : List (String × List (String × CSSTypeRec))) : Nat :=
  tcs.foldl (fun acc cat => acc + cat.2.length) 0

/-- Errors of the statistics-typing loop of `validateCSSData` (each of the
five totals must be a number, i.e. present in this model). -/
def cssStatsSectionErrors (s : Option CSSStats) : List CSSFinding :=
  match s with
  | none => []
  | some st =>
    (if st.totalProperties.isNone then [CSSFinding.invalidStat "totalProperties"] else []) ++
    (if st.totalTypes.isNone then [CSSFinding.invalidStat "totalTypes"] else []) ++
    (if st.totalSelectors.isNone then [CSSFinding.invalidStat "totalSelectors"] else []) ++
    (if st.totalFunctions.isNone then [CSSFinding.invalidStat "totalFunctions"] else []) ++
    (if st.totalAtRules.isNone then [CSSFinding.invalidStat "totalAtRules"] else [])

/-- The required-section errors of `validateCSSData`. -/
def cssSectionErrors (d : CSSData) : List CSSFinding :=
  (if d.metadata.isNone then [CSSFinding.missingSection "metadata"] else []) ++
  (if d.categories.isNone then [CSSFinding.missingSection "categories"] else []) ++
  (if d.statistics.isNone then [CSSFinding.missingSection "statistics"] else [])

/-- The required-category errors of `validateCSSData`. -/
def cssMissingCategoryErrors (cats : CSSCategories) : List CSSFinding :=
  (if cats.properties.isNone then [CSSFinding.missingCategory "properties"] else []) ++
  (if cats.types.isNone then [CSSFinding.missingCategory "types"] else []) ++
  (if cats.selectors.isNone then [CSSFinding.missingCategory "selectors"] else []) ++
  (if cats.functions.isNone then [CSSFinding.missingCategory "functions"] else []) ++
  (if cats.atRules.isNone then [CSSFinding.missingCategory "atRules"] else [])

/-- Continuation of `validateCSSData` after the properties block: the types
block, the statistics-typing loop, and the returned boolean.  When the types
block runs with `data.statistics` absent, the count-mismatch test
`data.statistics?.totalTypes !== typeCount` is true and building its message
dereferences `data.statistics`, so the `TypeError` is caught by the
surrounding `try` and the function returns `false`. -/
def cssTypesAndRest (e w : List CSSFinding) (cats : CSSCategories)
    (s : Option CSSStats) : CSSRun :=
  match cats.types with
  | none =>
    let errs := e ++ cssStatsSectionErrors s
    ⟨errs, w, errs.isEmpty⟩
  | some tcs =>
    let te := cssTypeFieldErrors tcs
    match s with
    | none => ⟨e ++ te, w, false⟩
    | some st =>
      let w2 := if st.totalTypes ≠ some (cssTypeCount tcs) then
        [CSSFinding.typeCountMismatch st.totalTypes (cssTypeCount tcs)] else []
      let errs := e ++ te ++ cssStatsSectionErrors (some st)
      ⟨errs, w ++ w2, errs.isEmpty⟩

/-- Embedding of `validateCSSData` from `src/CSS/scripts/validate-data.js`:
runs the checks in source order and returns `errors.length === 0`, except
that a `TypeError` raised while formatting a count-mismatch message with
`data.statistics` absent is caught and makes the function return `false`
(see `cssTypesAndRest`; the same situation in the properties block is the
`none` statistics case below). -/
def cssValidateCSSData (d : CSSData) : CSSRun :=
  let e1 := cssSectionErrors d
  match d.categories with
  | none =>
    let errs := e1 ++ cssStatsSectionErrors d.statistics
    ⟨errs, [], errs.isEmpty⟩
  | some cats =>
    let e2 := e1 ++ cssMissingCategoryErrors cats
    match cats.properties with
    | none => cssTypesAndRest e2 [] cats d.statistics
    | some pcs =>
      let pe := cssPropFieldErrors pcs
      let pw := cssPropNameWarnings pcs
      match d.statistics with
      | none => ⟨e2 ++ pe, pw, false⟩
      | some st =>
        let w2 := if st.totalProperties ≠ some (cssPropCount pcs) then
          [CSSFinding.propCountMismatch st.totalProperties (cssPropCount pcs)] else []
        cssTypesAndRest (e2 ++ pe) (pw ++ w2) cats (some st)

/-- Inner loop of the Levenshtein matrix row computation in
`HTMLValidator._levenshteinDistance`: walks the remaining characters of
`str1` in parallel with the tail of the previous row, carrying the
diagonal predecessor `diag` and the freshly computed left neighbour
`left`. -/
def htmlLevRowAux (c2 : Char) : List Char → List Nat → Nat → Nat → List Nat
  | [], _, _, _ => []
  | _ :: _, [], _, _ => []
  | c :: cs, up :: ps, diag, left =>
    let cell := if c = c2 then diag else min (diag + 1) (min (left + 1) (up + 1))
    cell :: htmlLevRowAux c2 cs ps up cell

/-- One outer-loop iteration of `HTMLValidator._levenshteinDistance`:
computes matrix row `i` from row `i - 1`, starting with the cell
`matrix[i][0] = i`. -/
def htmlLevNextRow (s1 : List Char) (c2 : Char) (prev : List Nat) : List Nat :=
  match prev with
  | [] => []
  | p0 :: ptail => (p0 + 1) :: htmlLevRowAux c2 s1 ptail p0 (p0 + 1)

/-- Embedding of `HTMLValidator._levenshteinDistance(str1, str2)`: builds
the dynamic-programming matrix row by row (rows indexed by `str2`, columns
by `str1`) and returns `matrix[str2.length][str1.length]`. -/
def htmlLevenshteinDistance (str1 str2 : List Char) : Nat :=
  (str2.foldl (fun prev c2 => htmlLevNextRow str1 c2 prev)
    (List.range (str1.length + 1))).getLastD 0

/-- Inner row loop of `CSSValidator.levenshteinDistance`, character for
character the same algorithm as `htmlLevRowAux`. -/
def cssLevRowAux (c2 : Char) : List Char → List Nat → Nat → Nat → List Nat
  | [], _, _, _ => []
  | _ :: _, [], _, _ => []
  | c :: cs, up :: ps, diag, left =>
    let cell := if c = c2 then diag else min (diag + 1) (min (left + 1) (up + 1))
    cell :: cssLevRowAux c2 cs ps up cell

/-- One outer-loop iteration of `CSSValidator.levenshteinDistance`. -/
def cssLevNextRow (s1 : List Char) (c2 : Char) (prev : List Nat) : List Nat :=
  match prev with
  | [] => []
  | p0 :: ptail => (p0 + 1) :: cssLevRowAux c2 s1 ptail p0 (p0 + 1)

/-- Embedding of `CSSValidator.levenshteinDistance(str1, str2)` from
`src/CSS/src/CSSValidator-new.js`. -/
def cssLevenshteinDistance (str1 str2 : List Char) : Nat :=
  (str2.foldl (fun prev c2 => cssLevNextRow str1 c2 prev)
    (List.range (str1.length + 1))).getLastD 0

/-- The classic Wagner-Fischer edit-distance recurrence: `levIdx a b i j`
is the edit distance between the first `i` characters of `a` and the first
`j` characters of `b`, with insertions, deletions and substitutions each
costing 1. -/
def levIdx (a b : List Char) (i j : Nat) : Nat :=
  match i, j with
  | 0, j => j
  | i + 1, 0 => i + 1
  | i + 1, j + 1 =>
    if a.getD i default = b.getD j default then levIdx a b i j
    else 1 + min (levIdx a b i j) (min (levIdx a b (i + 1) j) (levIdx a b i (j + 1)))
termination_by i + j

/-- The classic Levenshtein edit distance of two character lists. -/
def levSpec (a b : List Char) : Nat := levIdx a b a.length b.length

/-- The positional-match counter of `JavaScriptValidator.calculateSimilarity`:
number of indices below both lengths at which the two strings agree. -/
def countPositionalMatches : List Char → List Char → Nat
  | a :: as, b :: bs => (if a = b then 1 else 0) + countPositionalMatches as bs
  | _, _ => 0

/-- Embedding of `JavaScriptValidator.calculateSimilarity(str1, str2)`:
positional matches divided by the longer length (1 when both are empty). -/
def calculateSimilarity (s1 s2 : String) : ℚ :=
  let maxLength := max s1.length s2.length
  if maxLength = 0 then 1
  else (countPositionalMatches s1.data s2.data : ℚ) / (maxLength : ℚ)

/-- Embedding of `JavaScriptValidator.findSimilarObjects` (the object key
list is passed directly; the `!this.data` early return is handled by the
callers in this model). -/
def findSimilarObjects (objs : List (String × JSObject)) (objectName : String) :
    List String :=
  ((keysOf objs).filter fun nm =>
    decide (calculateSimilarity (jsToLowerCase objectName) (jsToLowerCase nm) > 1 / 2)).take 3

/-- Embedding of `JavaScriptValidator.findSimilarMethods`, scanning the
combined instance and static method key lists of one object. -/
def findSimilarMethods (ms sms : List (String × JSChild)) (methodName : String) :
    List String :=
  ((keysOf ms ++ keysOf sms).filter fun nm =>
    decide (calculateSimilarity (jsToLowerCase methodName) (jsToLowerCase nm) > 1 / 2)).take 3

/-- Embedding of `JavaScriptValidator.findSimilarKeywords`. -/
def findSimilarKeywords (kws : List (String × JSKeyword)) (keyword : String) :
    List String :=
  ((keysOf kws).filter fun nm =>
    decide (calculateSimilarity (jsToLowerCase keyword) (jsToLowerCase nm) > 1 / 2)).take 3

/-- Failure modes of a facade query: the explicit
`Validator not initialized. Call initialize() first.` throw, or a generic
JavaScript `TypeError` from reading a property of `null`/`undefined`. -/
inductive QueryError where
  | notInitialized
  | typeError
deriving DecidableEq

/-- Result record of `JavaScriptValidator.validateMethod`.  The source
builds two different object shapes: the parent-not-found result
`{exists, error, suggestion}` and the method result
`{exists, method, isStatic, suggestion}`; fields absent from a shape are
`none`. The `exists` field is named `existsB`. -/
structure JSMethodResult where
  existsB : Bool
  method : Option JSChild
  isStatic : Option Bool
  error : Option String
  suggestion : Option (List String)
deriving DecidableEq

/-- Embedding of `JavaScriptValidator.validateMethod(objectName, methodName)`.
With `this.data` unset the explicit not-initialized error is thrown; with a
loaded store the object is resolved first, an unknown object yields the
distinguished `{exists: false, error, suggestion}` shape, and otherwise the
method is looked up in `methods` and then `staticMethods` (a missing
`methods` or `staticMethods` map would make the property reads throw a
`TypeError`). -/
def validateMethod (st : Option JSData) (objectName methodName : String) :
    Except QueryError JSMethodResult :=
  match st with
  | none => .error .notInitialized
  | some data =>
    match data.objects with
    | none => .error .typeError
    | some objs =>
      match lookupMap objs objectName with
      | none =>
        .ok { existsB := false, method := none, isStatic := none,
              error := some ("Object " ++ objectName ++ " not found"),
              suggestion := some (findSimilarObjects objs objectName) }
      | some obj =>
        match obj.methods, obj.staticMethods with
        | some ms, some sms =>
          let m := (lookupMap ms methodName).or (lookupMap sms methodName)
          .ok { existsB := m.isSome, method := m,
                isStatic := some (lookupMap sms methodName).isSome,
                error := none,
                suggestion := if m.isSome then none
                  else some (findSimilarMethods ms sms methodName) }
        | _, _ => .error .typeError

/-- Result record of `JavaScriptValidator.validateObject`. -/
structure JSObjectResult where
  existsB : Bool
  object : Option JSObject
  suggestion : Option (List String)
deriving DecidableEq

/-- Embedding of `JavaScriptValidator.validateObject(objectName)`. -/
def validateObject (st : Option JSData) (objectName : String) :
    Except QueryError JSObjectResult :=
  match st with
  | none => .error .notInitialized
  | some data =>
    match data.objects with
    | none => .error .typeError
    | some objs =>
      let o := lookupMap objs objectName
      .ok { existsB := o.isSome, object := o,
            suggestion := if o.isSome then none
              else some (findSimilarObjects objs objectName) }

/-- Result record of `CSSValidator.validateProperty`. -/
structure CSSPropertyResult where
  valid : Bool
  property : String
  category : Option String
  propSyntax : Option String
  isVendorPrefix : Bool
  isCustomProperty : Bool
  suggestions : List String
deriving DecidableEq

/-- One suggestion record built by `CSSValidator.findSimilarProperties`:
`{property, distance, category}`. -/
structure CSSSuggestionRec where
  property : String
  distance : Nat
  category : String
deriving DecidableEq

/-- The unsorted suggestion list collected by
`CSSValidator.findSimilarProperties`: every property name of every
property category at Levenshtein distance at most 3 from the query, with
both sides lowercased, in collection iteration order. -/
def cssSuggestionPool (pcs : List (String × List (String × CSSProp)))
    (propertyName : String) : List CSSSuggestionRec :=
  pcs.flatMap fun cat => cat.2.filterMap fun q =>
    let d := cssLevenshteinDistance (jsToLowerCase propertyName).data (jsToLowerCase q.1).data
    if d ≤ 3 then some ⟨q.1, d, cat.1⟩ else none

/-- The sorted, truncated suggestion records of
`CSSValidator.findSimilarProperties`: stable sort by ascending distance
(JavaScript `Array.prototype.sort` with comparator
`(a, b) => a.distance - b.distance` is stable), then the first five. -/
def cssFindSimilarRecords (pcs : List (String × List (String × CSSProp)))
    (propertyName : String) : List CSSSuggestionRec :=
  ((cssSuggestionPool pcs propertyName).mergeSort
    (fun a b => a.distance ≤ b.distance)).take 5

/-- Embedding of `CSSValidator.findSimilarProperties(propertyName)`. -/
def cssFindSimilarProperties (pcs : List (String × List (String × CSSProp)))
    (propertyName : String) : List String :=
  (cssFindSimilarRecords pcs propertyName).map (fun s => s.property)

/-- Embedding of `CSSValidator.validateProperty(propertyName)`: the explicit
not-initialized guard, then the first property category containing the name
wins. -/
def cssValidateProperty (st : Option CSSData) (propertyName : String) :
    Except QueryError CSSPropertyResult :=
  match st with
  | none => .error .notInitialized
  | some data =>
    match data.categories with
    | none => .error .typeError
    | some cats =>
      match cats.properties with
      | none => .error .typeError
      | some pcs =>
        match pcs.find? (fun cat => (lookupMap cat.2 propertyName).isSome) with
        | some cat =>
          match lookupMap cat.2 propertyName with
          | some prop =>
            .ok { valid := true, property := propertyName, category := some cat.1,
                  propSyntax := prop.propSyntax,
                  isVendorPrefix := prop.isVendorPrefix,
                  isCustomProperty := prop.isCustomProperty, suggestions := [] }
          | none =>
            .ok { valid := false, property := propertyName, category := none,
                  propSyntax := none, isVendorPrefix := false,
                  isCustomProperty := false,
                  suggestions := cssFindSimilarProperties pcs propertyName }
        | none =>
          .ok { valid := false, property := propertyName, category := none,
                propSyntax := none, isVendorPrefix := false,
                isCustomProperty := false,
                suggestions := cssFindSimilarProperties pcs propertyName }

/-- Result record of `CSSValidator.validateFunction`. -/
structure CSSFunctionResult where
  valid : Bool
  function_ : String
  category : Option String
  propSyntax : Option String
  parameters : List String
  suggestions : List String
deriving DecidableEq

/-- Embedding of `CSSValidator.findSimilarFunctions(functionName)`:
function names containing the lowercased query as a substring, first
three. Substring containment is modeled over character lists. -/
def cssFindSimilarFunctions (fcs : List (String × List (String × CSSFunctionRec)))
    (functionName : String) : List String :=
  ((fcs.flatMap fun cat => keysOf cat.2).filter fun nm =>
    ((jsToLowerCase functionName).data).IsInfix ((jsToLowerCase nm).data) |> decide).take 3

/-- Embedding of `CSSValidator.validateFunction(functionName)`.  Unlike
`validateProperty` there is no `!this.data` guard: with the store unset the
very first access `this.data.categories.functions` reads a property of
`null` and throws a generic `TypeError`, modeled as `.error .typeError`. -/
def cssValidateFunction (st : Option CSSData) (functionName : String) :
    Except QueryError CSSFunctionResult :=
  match st with
  | none => .error .typeError
  | some data =>
    match data.categories with
    | none => .error .typeError
    | some cats =>
      match cats.functions with
      | none => .error .typeError
      | some fcs =>
        match fcs.find? (fun cat => (lookupMap cat.2 functionName).isSome) with
        | some cat =>
          match lookupMap cat.2 functionName with
          | some f =>
            .ok { valid := true, function_ := functionName, category := some cat.1,
                  propSyntax := f.propSyntax, parameters := f.parameters.getD [],
                  suggestions := [] }
          | none =>
            .ok { valid := false, function_ := functionName, category := none,
                  propSyntax := none, parameters := [],
                  suggestions := cssFindSimilarFunctions fcs functionName }
        | none =>
          .ok { valid := false, function_ := functionName, category := none,
                propSyntax := none, parameters := [],
                suggestions := cssFindSimilarFunctions fcs functionName }

/-- An attribute record of the HTML dataset (`{name, description}`). -/
structure HTMLAttr where
  name : String
  description : Option String
deriving DecidableEq

/-- An element record of the HTML dataset; only the fields read by the
embedded operations are modeled. -/
structure HTMLElementRec where
  name : String
  attributes : Option (List HTMLAttr)
deriving DecidableEq

/-- The HTML dataset file (`html-elements.json`): `elements` may be absent,
in which case `_initializeData` builds empty indexes. -/
structure HTMLDataFile where
  elements : Option (List HTMLElementRec)
deriving DecidableEq

/-- The two maps built by `HTMLValidator._initializeData`. -/
structure HTMLIndex where
  elements : List (String × HTMLElementRec)
  attributes : List (String × List String)
deriving DecidableEq

/-- JavaScript `Map.prototype.set`: replaces the value in place when the key
is present, otherwise appends the binding. -/
def mapSet {α : Type} (m : List (String × α)) (k : String) (v : α) :
    List (String × α) :=
  if (keysOf m).contains k then
    m.map fun p => if p.1 == k then (k, v) else p
  else m ++ [(k, v)]

/-- JavaScript `Map` push-to-bucket used for the attributes index:
get-or-create the bucket for `k` and append `v` to it. -/
def mapPush (m : List (String × List String)) (k v : String) :
    List (String × List String) :=
  match lookupMap m k with
  | some bucket => mapSet m k (bucket ++ [v])
  | none => m ++ [(k, [v])]

/-- Processing of one element by `HTMLValidator._initializeData`: index the
element under its stored name (note: the key is `element.name` verbatim, not
lowercased) and add the element name to each of its attribute buckets. -/
def htmlIndexElement (idx : HTMLIndex) (el : HTMLElementRec) : HTMLIndex :=
  { elements := mapSet idx.elements el.name el,
    attributes := (el.attributes.getD []).foldl
      (fun m attr => mapPush m attr.name el.name) idx.attributes }

/-- Embedding of `HTMLValidator._initializeData`. -/
def htmlInitializeData (htmlData : Option HTMLDataFile) : HTMLIndex :=
  match htmlData with
  | none => ⟨[], []⟩
  | some d =>
    match d.elements with
    | none => ⟨[], []⟩
    | some els => els.foldl htmlIndexElement ⟨[], []⟩

/-- Embedding of `HTMLValidator._calculateSimilarity(str1, str2)`:
`(longer.length - editDistance) / longer.length` with the longer string
first (1 when both strings are empty). -/
def htmlCalculateSimilarity (s1 s2 : String) : ℚ :=
  let longer := if s1.length > s2.length then s1 else s2
  let shorter := if s1.length > s2.length then s2 else s1
  if longer.length = 0 then 1
  else ((longer.length : ℚ) - (htmlLevenshteinDistance longer.data shorter.data : ℚ)) /
    (longer.length : ℚ)

/-- Embedding of `HTMLValidator._getSuggestions(elementName)`: every indexed
name with similarity above 0.6, in index order, first five. -/
def htmlGetSuggestions (idx : HTMLIndex) (elementName : String) : List String :=
  ((keysOf idx.elements).filter fun nm =>
    decide (htmlCalculateSimilarity elementName nm > 6 / 10)).take 5

/-- Embedding of `HTMLValidator._getAttributeSuggestions(element, attributeName)`. -/
def htmlGetAttributeSuggestions (el : HTMLElementRec) (attributeName : String) :
    List String :=
  (((el.attributes.getD []).map fun a => a.name).filter fun nm =>
    decide (htmlCalculateSimilarity attributeName nm > 6 / 10)).take 5

/-- Result record of `HTMLValidator.validateElement`. -/
structure HTMLElementResult where
  isValid : Bool
  element : Option HTMLElementRec
  suggestions : List String
deriving DecidableEq

/-- Embedding of `HTMLValidator.validateElement(elementName)`: the query is
lowercased, looked up, and suggestions are computed only on a miss. -/
def validateElement (idx : HTMLIndex) (elementName : String) : HTMLElementResult :=
  let normalizedName := jsToLowerCase elementName
  let element := lookupMap idx.elements normalizedName
  { isValid := element.isSome,
    element := element,
    suggestions := if element.isSome then [] else htmlGetSuggestions idx normalizedName }

/-- The fixed global-attribute name list of `HTMLValidator._isGlobalAttribute`. -/
def globalAttributes : List String :=
  ["accesskey", "class", "contenteditable", "dir", "draggable",
   "hidden", "id", "lang", "spellcheck", "style", "tabindex",
   "title", "translate", "data-*", "aria-*"]

/-- Embedding of `HTMLValidator._isGlobalAttribute(attributeName)`. -/
def isGlobalAttribute (attributeName : String) : Bool :=
  globalAttributes.contains attributeName ||
  jsStartsWith attributeName "data-" ||
  jsStartsWith attributeName "aria-"

/-- Result record of `HTMLValidator.validateAttribute`; the unknown-element
shape `{isValid, reason, suggestions}` leaves `isGlobal` and the source
field `attribute` (here `attr`) absent. -/
structure HTMLAttrResult where
  isValid : Bool
  isGlobal : Option Bool
  attr : Option HTMLAttr
  reason : Option String
  suggestions : List String
deriving DecidableEq

/-- Embedding of `HTMLValidator.validateAttribute(elementName, attributeName)`. -/
def validateAttribute (idx : HTMLIndex) (elementName attributeName : String) :
    HTMLAttrResult :=
  let normalizedElement := jsToLowerCase elementName
  let normalizedAttribute := jsToLowerCase attributeName
  match lookupMap idx.elements normalizedElement with
  | none =>
    { isValid := false, isGlobal := none, attr := none,
      reason := some ("Unknown element: " ++ elementName),
      suggestions := htmlGetSuggestions idx normalizedElement }
  | some element =>
    let hasAttribute := (element.attributes.getD []).any fun attr =>
      attr.name == normalizedAttribute
    let isGlobal := isGlobalAttribute normalizedAttribute
    { isValid := hasAttribute || isGlobal,
      isGlobal := some isGlobal,
      attr := if hasAttribute then
        (element.attributes.getD []).find? (fun a => a.name == normalizedAttribute)
        else none,
      reason := none,
      suggestions := if hasAttribute || isGlobal then []
        else htmlGetAttributeSuggestions element normalizedAttribute }

/-- Predicate picking out duplicate-method findings for a given object key. -/
def isDuplicateFindingFor (objKey : String) : Finding → Bool
  | .duplicateMethods k _ => k == objKey
  | _ => false

/-- Fixture: the `map` instance method record of the `Array` scenario. -/
def mapChild : JSChild :=
  ⟨some "map", some "Creates a new array populated with the results of a callback", false⟩

/-- Fixture: the `flatMap` instance method record of the `Array` scenario. -/
def flatMapChild : JSChild :=
  ⟨some "flatMap", some "Maps each element and flattens the result by one level", false⟩

/-- Fixture: the `isArray` static method record of the `Array` scenario. -/
def isArrayChild : JSChild :=
  ⟨some "isArray", some "Determines whether the passed value is an Array", true⟩

/-- Fixture: instance methods of the `Array` scenario entry. -/
def arrayMethods : List (String × JSChild) := [("map", mapChild), ("flatMap", flatMapChild)]

/-- Fixture: static methods of the `Array` scenario entry. -/
def arrayStatics : List (String × JSChild) := [("isArray", isArrayChild)]

/-- Fixture: the `Array` entry of the end-to-end scenario. -/
def arrayObject : JSObject :=
  ⟨some "Array", some "The Array built-in object for list manipulation", none,
   some arrayMethods, some arrayStatics, some []⟩

/-- Fixture: objects collection holding only `Array`. -/
def jsArrayObjects : List (String × JSObject) := [("Array", arrayObject)]

/-- Fixture: a loaded JavaScript dataset for the `Array` scenario. -/
def jsArrayData : JSData := ⟨some [], some jsArrayObjects, some [], none⟩

/-- Fixture: a fully consistent metadata block for the empty dataset. -/
def jsCleanMetadata : JSMetadata :=
  ⟨some "1.0.0", some "2024-01-01", some 0, some 0, some 0, some 0⟩

/-- Fixture: a fully consistent empty JavaScript dataset. -/
def jsCleanData : JSData := ⟨some [], some [], some [], some jsCleanMetadata⟩

/-- Fixture: metadata whose stored method total 5 disagrees with the live
collections. -/
def jsMismatchMetadata : JSMetadata :=
  ⟨some "1.0.0", some "2024-01-01", some 0, some 1, some 0, some 5⟩

/-- Fixture: an object entry with one instance and one static method. -/
def c2Object : JSObject :=
  ⟨some "Obj", some "A demonstration object entry", none,
   some [("m1", mapChild)], some [("s1", isArrayChild)], some []⟩

/-- Fixture: objects collection for the metadata-mismatch scenario. -/
def c2Objects : List (String × JSObject) := [("Obj", c2Object)]

/-- Fixture: an object entry with the same child name in both maps. -/
def c3Object : JSObject :=
  ⟨some "Dup", some "Object with a duplicated child name", none,
   some [("both", mapChild)], some [("both", isArrayChild)], some []⟩

/-- Fixture: objects collection for the duplicate-name scenario. -/
def c3Objects : List (String × JSObject) := [("Dup", c3Object)]

/-- Fixture: a category whose member-objects map references the missing
name `Widget`. -/
def c4Category : JSCategory := ⟨some "Core", some [], some ["Widget"], some []⟩

/-- Fixture: categories collection for the dangling-reference scenario. -/
def c4Cats : List (String × JSCategory) := [("Core", c4Category)]

/-- Fixture: an HTML dataset whose only element is stored under the
uppercase name `DIV`. -/
def htmlUpperData : HTMLDataFile := ⟨some [⟨"DIV", some []⟩]⟩

/-- Fixture: an HTML dataset with a lowercase `div` element carrying no own
attributes. -/
def htmlDivData : HTMLDataFile := ⟨some [⟨"div", some []⟩]⟩

/-- Fixture: an object entry whose contents are irrelevant to suggestion
generation (only keys are scanned). -/
def c8Object : JSObject := ⟨some "x", some "placeholder entry", none, none, none, none⟩

/-- Fixture: objects collection whose key list is `[hezzo, hellz]`; against
the query `hello` the first scores 3/5 and the second 4/5. -/
def c8Objects : List (String × JSObject) := [("hezzo", c8Object), ("hellz", c8Object)]

theorem decide_calcSim (s1 s2 : String) :
    (decide (calculateSimilarity s1 s2 > 1 / 2) : Bool) =
      (decide (max s1.length s2.length = 0) ||
       decide (max s1.length s2.length < 2 * countPositionalMatches s1.data s2.data)) := by
  have hcalc : calculateSimilarity s1 s2 =
      if max s1.length s2.length = 0 then 1
      else (countPositionalMatches s1.data s2.data : ℚ) /
        ((max s1.length s2.length : Nat) : ℚ) := rfl
  by_cases h : max s1.length s2.length = 0
  · rw [hcalc, if_pos h]
    have h1 : decide ((1 : ℚ) > 1 / 2) = true := by norm_num
    rw [h1]
    simp [h]
  · rw [hcalc, if_neg h]
    have h0 : (decide (max s1.length s2.length = 0)) = false := by simp [h]
    rw [h0, Bool.false_or, decide_eq_decide]
    have hpos : (0 : ℚ) < ((max s1.length s2.length : Nat) : ℚ) := by
      exact_mod_cast Nat.pos_of_ne_zero h
    rw [gt_iff_lt, lt_div_iff₀ hpos]
    constructor
    · intro hh
      have hq : ((max s1.length s2.length : Nat) : ℚ) <
          2 * (countPositionalMatches s1.data s2.data : ℚ) := by linarith
      exact_mod_cast hq
    · intro hh
      have hq : ((max s1.length s2.length : Nat) : ℚ) <
          2 * (countPositionalMatches s1.data s2.data : ℚ) := by exact_mod_cast hh
      linarith

theorem decide_htmlSim (s1 s2 : String) :
    (decide (htmlCalculateSimilarity s1 s2 > 6 / 10) : Bool) =
      (decide ((if s1.length > s2.length then s1 else s2).length = 0) ||
       decide (5 * htmlLevenshteinDistance (if s1.length > s2.length then s1 else s2).data
           (if s1.length > s2.length then s2 else s1).data <
         2 * (if s1.length > s2.length then s1 else s2).length)) := by
  have hcalc : htmlCalculateSimilarity s1 s2 =
      if (if s1.length > s2.length then s1 else s2).length = 0 then 1
      else (((if s1.length > s2.length then s1 else s2).length : ℚ) -
          (htmlLevenshteinDistance (if s1.length > s2.length then s1 else s2).data
            (if s1.length > s2.length then s2 else s1).data : ℚ)) /
        ((if s1.length > s2.length then s1 else s2).length : ℚ) := rfl
  set longer := if s1.length > s2.length then s1 else s2 with hlonger
  set shorter := if s1.length > s2.length then s2 else s1 with hshorter
  by_cases h : longer.length = 0
  · rw [hcalc, if_pos h]
    have h1 : decide ((1 : ℚ) > 6 / 10) = true := by norm_num
    rw [h1]
    simp [h]
  · rw [hcalc, if_neg h]
    have h0 : (decide (longer.length = 0)) = false := by simp [h]
    rw [h0, Bool.false_or, decide_eq_decide]
    have hpos : (0 : ℚ) < (longer.length : ℚ) := by
      exact_mod_cast Nat.pos_of_ne_zero h
    rw [gt_iff_lt, lt_div_iff₀ hpos]
    constructor
    · intro hh
      have hq : 5 * (htmlLevenshteinDistance longer.data shorter.data : ℚ) <
          2 * (longer.length : ℚ) := by linarith
      exact_mod_cast hq
    · intro hh
      have hq : 5 * (htmlLevenshteinDistance longer.data shorter.data : ℚ) <
          2 * (longer.length : ℚ) := by exact_mod_cast hh
      linarith

theorem charLower_fix (c : Char) (h : ¬ (65 ≤ c.toNat ∧ c.toNat ≤ 90)) :
    charLower c = c := by
  unfold charLower
  rw [if_neg h]

theorem toNat_ofNat_lowercase (n : Nat) (h1 : 97 ≤ n) (h2 : n ≤ 122) :
    (Char.ofNat n).toNat = n := by
  have hv : n.isValidChar := Or.inl (by omega)
  simp [Char.ofNat, hv, Char.ofNatAux, Char.toNat, UInt32.ofNat', UInt32.toNat,
    BitVec.toNat_ofNatLt]

theorem charLower_toNat_of_upper (c : Char) (h : 65 ≤ c.toNat ∧ c.toNat ≤ 90) :
    (charLower c).toNat = c.toNat + 32 := by
  unfold charLower
  rw [if_pos h]
  exact toNat_ofNat_lowercase (c.toNat + 32) (by omega) (by omega)

theorem charLower_idem (c : Char) : charLower (charLower c) = charLower c := by
  by_cases h : 65 ≤ c.toNat ∧ c.toNat ≤ 90
  · have ht : (charLower c).toNat = c.toNat + 32 := charLower_toNat_of_upper c h
    exact charLower_fix _ (by omega)
  · rw [charLower_fix c h]
    exact charLower_fix c h

theorem jsToLowerCase_idem (s : String) :
    jsToLowerCase (jsToLowerCase s) = jsToLowerCase s := by
  unfold jsToLowerCase
  simp [List.map_map, Function.comp_def, charLower_idem]

theorem leadsWith_map (f : Char → Char) :
    ∀ l p : List Char, leadsWith l p = true → leadsWith (l.map f) (p.map f) = true := by
  intro l p
  induction p generalizing l with
  | nil => intro _; simp [leadsWith]
  | cons q ps ih =>
    intro h
    cases l with
    | nil => simp [leadsWith] at h
    | cons c cs =>
      simp only [leadsWith, Bool.and_eq_true, beq_iff_eq] at h
      simp only [List.map_cons, leadsWith, Bool.and_eq_true, beq_iff_eq]
      exact ⟨congrArg f h.1, ih cs h.2⟩

theorem isGlobalAttribute_toLower (a : String)
    (hglob : jsStartsWith a "data-" = true ∨ jsStartsWith a "aria-" = true ∨
      a ∈ globalAttributes) :
    isGlobalAttribute (jsToLowerCase a) = true := by
  rcases hglob with h | h | h
  · have hm : leadsWith (a.data.map charLower) ("data-".data.map charLower) = true :=
      leadsWith_map charLower a.data "data-".data h
    have hfix : "data-".data.map charLower = "data-".data := by decide
    rw [hfix] at hm
    have : jsStartsWith (jsToLowerCase a) "data-" = true := hm
    simp [isGlobalAttribute, this]
  · have hm : leadsWith (a.data.map charLower) ("aria-".data.map charLower) = true :=
      leadsWith_map charLower a.data "aria-".data h
    have hfix : "aria-".data.map charLower = "aria-".data := by decide
    rw [hfix] at hm
    have : jsStartsWith (jsToLowerCase a) "aria-" = true := hm
    simp [isGlobalAttribute, this]
  · fin_cases h <;> decide

/-- C9: for every element present in the HTML index and every attribute name
that starts with `data-` or `aria-` or is one of the fixed global attribute
names, `validateAttribute` returns `isValid = true` with `isGlobal = true`,
regardless of the element's own attribute list. -/
theorem htmlGlobalAttributesAlwaysValid (idx : HTMLIndex)
    (elementName attributeName : String) (el : HTMLElementRec)
    (hel : lookupMap idx.elements (jsToLowerCase elementName) = some el)
    (hglob : jsStartsWith attributeName "data-" = true ∨
             jsStartsWith attributeName "aria-" = true ∨
             attributeName ∈ globalAttributes) :
    (validateAttribute idx elementName attributeName).isValid = true ∧
    (validateAttribute idx elementName attributeName).isGlobal = some true := by
  have hgl : isGlobalAttribute (jsToLowerCase attributeName) = true :=
    isGlobalAttribute_toLower attributeName hglob
  simp [validateAttribute, hel, hgl]

/-- Witness for C9 at the concrete element `div` (with no own attributes)
and the attribute `data-x`. -/
theorem htmlGlobalAttributesAlwaysValid_witness :
    (validateAttribute (htmlInitializeData (some htmlDivData)) "div" "data-x").isValid = true ∧
    (validateAttribute (htmlInitializeData (some htmlDivData)) "div" "data-x").isGlobal =
      some true :=
  htmlGlobalAttributesAlwaysValid (htmlInitializeData (some htmlDivData)) "div" "data-x"
    ⟨"div", some []⟩ (by decide) (Or.inl (by decide))

/-- C7 counterexample: the element index is built from `element.name`
verbatim, not lowercased.  In the store built from a single element named
`DIV`, the index key is the uppercase `DIV`, the lowercase lookup key `div`
resolves to nothing, and `validateElement` rejects both `DIV` and `div`;
under the claimed build-time normalization both queries would resolve to
the record. -/
theorem htmlIndexNotLowercasedAtBuild :
    (htmlInitializeData (some htmlUpperData)).elements = [("DIV", ⟨"DIV", some []⟩)] ∧
    lookupMap (htmlInitializeData (some htmlUpperData)).elements "div" = none ∧
    (validateElement (htmlInitializeData (some htmlUpperData)) "DIV").isValid = false ∧
    (validateElement (htmlInitializeData (some htmlUpperData)) "div").isValid = false := by
  refine ⟨by decide, by decide, rfl, rfl⟩

/-- C7 amended: element names are lowercased before every lookup only (not
when the index is built), so for every index and every query string the
result of `validateElement` on a query and on its lowercased form are equal
records. -/
theorem validateElementCaseInsensitiveQuery (idx : HTMLIndex) (s : String) :
    validateElement idx s = validateElement idx (jsToLowerCase s) := by
  unfold validateElement
  rw [jsToLowerCase_idem]

/-- C6: the CSS facade `validateFunction` has no initialization guard: called
before `initialize()` it fails with a generic `TypeError` from dereferencing
the null store rather than the explicit not-initialized error that
`validateProperty` and the JavaScript facade operations raise. -/
theorem cssValidateFunctionLacksInitGuard :
    cssValidateFunction none "rgb()" = .error .typeError ∧
    cssValidateProperty none "rgb()" = .error .notInitialized ∧
    validateMethod none "Array" "map" = .error .notInitialized ∧
    validateObject none "Array" = .error .notInitialized ∧
    QueryError.typeError ≠ QueryError.notInitialized := by
  exact ⟨rfl, rfl, rfl, rfl, by decide⟩

theorem findSimilarObjects_widget : findSimilarObjects jsArrayObjects "Widget" = [] := by
  unfold findSimilarObjects
  simp only [decide_calcSim]
  decide

theorem findSimilarMethods_flatMix :
    findSimilarMethods arrayMethods arrayStatics "flatMix" = ["flatMap"] := by
  unfold findSimilarMethods
  simp only [decide_calcSim]
  decide

/-- C5: on the `Array` fixture, `validateMethod` reports `map` as an
existing non-static child, `isArray` as an existing static child, an unknown
parent with the distinguished error-carrying shape, and the typo `flatMix`
as missing with `flatMap` among the suggestions. -/
theorem existsChildArrayScenario :
    validateMethod (some jsArrayData) "Array" "map" =
      .ok ⟨true, some mapChild, some false, none, none⟩ ∧
    validateMethod (some jsArrayData) "Array" "isArray" =
      .ok ⟨true, some isArrayChild, some true, none, none⟩ ∧
    validateMethod (some jsArrayData) "Widget" "map" =
      .ok ⟨false, none, none, some "Object Widget not found", some []⟩ ∧
    validateMethod (some jsArrayData) "Array" "flatMix" =
      .ok ⟨false, none, some false, none, some ["flatMap"]⟩ := by
  refine ⟨rfl, rfl, ?_, ?_⟩
  · have hstep : validateMethod (some jsArrayData) "Widget" "map" =
        .ok ⟨false, none, none, some ("Object " ++ "Widget" ++ " not found"),
             some (findSimilarObjects jsArrayObjects "Widget")⟩ := rfl
    rw [hstep, findSimilarObjects_widget]
    rfl
  · have hstep : validateMethod (some jsArrayData) "Array" "flatMix" =
        .ok ⟨false, none, some false, none,
             some (findSimilarMethods arrayMethods arrayStatics "flatMix")⟩ := rfl
    rw [hstep, findSimilarMethods_flatMix]

theorem cssTypesAndRest_valid_iff (e w : List CSSFinding) (cats : CSSCategories)
    (s : Option CSSStats)
    (hs : s = none → CSSFinding.missingSection "statistics" ∈ e) :
    (cssTypesAndRest e w cats s).valid = true ↔ (cssTypesAndRest e w cats s).errors = [] := by
  unfold cssTypesAndRest
  cases hts : cats.types with
  | none => simp [List.isEmpty_iff]
  | some tcs =>
    cases s with
    | none =>
      have hmem := hs rfl
      have hne : e ++ cssTypeFieldErrors tcs ≠ [] := by
        intro hh
        rw [List.append_eq_nil] at hh
        rw [hh.1] at hmem
        simp at hmem
      simp [hne]
    | some st => simp [List.isEmpty_iff]

/-- C1: the JavaScript dataset validator exits successfully exactly when its
errors list is empty and its exit decision ignores the warnings list
entirely; the CSS dataset validator returns true exactly when its errors
list is empty (also on the caught-TypeError path, where the missing
statistics section has already pushed an error). -/
theorem validatorResultTrueIffNoErrors :
    (∀ (d : JSData) (st : JSRunState), jsValidate d = some st →
      (jsReportExitCode st.errors st.warnings = 0 ↔ st.errors = [])) ∧
    (∀ e w w' : List Finding, jsReportExitCode e w = jsReportExitCode e w') ∧
    (∀ c : CSSData, (cssValidateCSSData c).valid = true ↔ (cssValidateCSSData c).errors = []) := by
  refine ⟨?_, ?_, ?_⟩
  · intro d st _
    by_cases h : st.errors = []
    · simp [jsReportExitCode, h]
    · have hp : 0 < st.errors.length := List.length_pos.mpr h
      simp [jsReportExitCode, hp, h]
  · intro e w w'
    rfl
  · intro c
    obtain ⟨cm, ccat, cstat⟩ := c
    cases ccat with
    | none => simp [cssValidateCSSData, List.isEmpty_iff]
    | some cats =>
      obtain ⟨cp, ct, cs, cf, ca⟩ := cats
      cases cp with
      | none =>
        unfold cssValidateCSSData
        dsimp only
        apply cssTypesAndRest_valid_iff
        intro hsnone
        subst hsnone
        simp [cssSectionErrors]
      | some pcs =>
        cases cstat with
        | none =>
          unfold cssValidateCSSData
          dsimp only
          have hmem : CSSFinding.missingSection "statistics" ∈
              ((cssSectionErrors ⟨cm, some ⟨some pcs, ct, cs, cf, ca⟩, none⟩ ++
                cssMissingCategoryErrors ⟨some pcs, ct, cs, cf, ca⟩) ++
                cssPropFieldErrors pcs) := by
            simp [cssSectionErrors]
          constructor
          · intro hv
            exact absurd hv (by simp)
          · intro hnil
            rw [hnil] at hmem
            simp at hmem
        | some st =>
          unfold cssValidateCSSData
          dsimp only
          exact cssTypesAndRest_valid_iff _ _ _ _ (fun hh => nomatch hh)

/-- Witness for C1 on a concrete consistent dataset. -/
theorem validatorResultTrueIffNoErrors_witness :
    jsValidate jsCleanData = some ⟨[], []⟩ ∧
    (jsReportExitCode ([] : List Finding) ([] : List Finding) = 0 ↔
      ([] : List Finding) = []) :=
  ⟨by decide, validatorResultTrueIffNoErrors.1 jsCleanData ⟨[], []⟩ (by decide)⟩

theorem count_ite_singleton {α : Type} [DecidableEq α] (c : Prop) [Decidable c] (a b : α) :
    ((if c then [a] else []).count b) = if c ∧ a = b then 1 else 0 := by
  by_cases hc : c <;> by_cases hab : a = b <;>
    simp [hc, hab, List.count_cons, List.count_nil]

theorem foldl_two_counts {α : Type} (f g : α → Nat) (l : List α) :
    ∀ n : Nat, l.foldl (fun acc x => acc + f x + g x) n = n + (l.map fun x => f x + g x).sum := by
  induction l with
  | nil => intro n; simp
  | cons x xs ih =>
    intro n
    rw [List.foldl_cons, ih, List.map_cons, List.sum_cons]
    ring

/-- C2: metadata validation recomputes the method total as the sum over all
object entries of the number of methods plus the number of static methods,
and its error list contains the method-count-mismatch finding (citing both
the stored and the recomputed value) exactly once when `totalMethods`
differs from that sum and never when they agree; every
method-count-mismatch finding carries exactly those two values. -/
theorem metadataMethodTotalRecomputed (md : JSMetadata) (cats : List (String × JSCategory))
    (objs : List (String × JSObject)) (kws : List (String × JSKeyword)) :
    jsActualMethods objs =
      (objs.map fun p => (p.2.methods.getD []).length + (p.2.staticMethods.getD []).length).sum ∧
    (validateMetadata md cats objs kws).1.count
        (Finding.methodCountMismatch md.totalMethods (jsActualMethods objs)) =
      (if md.totalMethods = some (jsActualMethods objs) then 0 else 1) ∧
    (∀ c a, Finding.methodCountMismatch c a ∈ (validateMetadata md cats objs kws).1 →
      c = md.totalMethods ∧ a = jsActualMethods objs) := by
  refine ⟨?_, ?_, ?_⟩
  · unfold jsActualMethods
    rw [foldl_two_counts (fun p => (keysOf (p.2.methods.getD [])).length)
      (fun p => (keysOf (p.2.staticMethods.getD [])).length) objs 0]
    simp [keysOf]
  · unfold validateMetadata
    dsimp only
    simp only [List.count_append, count_ite_singleton]
    by_cases h : md.totalMethods = some (jsActualMethods objs) <;> simp [h]
  · intro c a h
    unfold validateMetadata at h
    dsimp only at h
    simp only [List.mem_append] at h
    rcases h with ((((((((((h | h) | h) | h) | h) | h) | h) | h) | h) | h) | h)
    all_goals try ((exfalso; revert h; split <;> simp); done)
    revert h
    split
    · intro h
      simp only [List.mem_singleton, Finding.methodCountMismatch.injEq] at h
      exact h
    · intro h
      simp at h

/-- Witness for C2: stored total 5 against recomputed total 2 produces the
mismatch finding exactly once. -/
theorem metadataMethodTotalRecomputed_witness :
    (validateMetadata jsMismatchMetadata [] c2Objects []).1.count
      (Finding.methodCountMismatch (some 5) 2) = 1 := by
  have h := (metadataMethodTotalRecomputed jsMismatchMetadata [] c2Objects []).2.1
  have h2 : jsActualMethods c2Objects = 2 := by decide
  rw [h2, show jsMismatchMetadata.totalMethods = some 5 from rfl] at h
  simpa using h

theorem indexOf_append_lt {l₁ l₂ : List String} {a : String} (h : a ∈ l₁) :
    (l₁ ++ l₂).indexOf a < l₁.length := by
  induction l₁ with
  | nil => cases h
  | cons x xs ih =>
    by_cases hx : x = a
    · simp [List.indexOf_cons, hx]
    · have hmem : a ∈ xs := by
        cases h with
        | head => exact absurd rfl hx
        | tail _ h => exact h
      have hlt := ih hmem
      have hbe : (x == a) = false := beq_eq_false_iff_ne.mpr hx
      simp only [List.cons_append, List.indexOf_cons, hbe, cond_false, List.length_cons]
      omega

theorem mem_jsDuplicates_of_mem_both {l₁ l₂ : List String} {a : String}
    (h1 : a ∈ l₁) (h2 : a ∈ l₂) : a ∈ jsDuplicates (l₁ ++ l₂) := by
  obtain ⟨j, hj, hget⟩ := List.mem_iff_getElem.mp h2
  unfold jsDuplicates
  apply List.mem_map.mpr
  refine ⟨(l₁.length + j, a), ?_, rfl⟩
  apply List.mem_filter.mpr
  constructor
  · apply List.mem_enum_iff_getElem?.mpr
    rw [List.getElem?_append_right (by omega)]
    simp only [Nat.add_sub_cancel_left]
    rw [List.getElem?_eq_getElem hj, hget]
  · simp only [decide_eq_true_eq]
    have hlt := @indexOf_append_lt l₁ l₂ a h1
    omega

theorem lookup_key_unique {β : Type} {l : List (String × β)} {k : String} {b1 b2 : β}
    (hnd : (l.map Prod.fst).Nodup) (h1 : (k, b1) ∈ l) (h2 : (k, b2) ∈ l) : b1 = b2 := by
  induction l with
  | nil => cases h1
  | cons x xs ih =>
    simp only [List.map_cons, List.nodup_cons] at hnd
    cases h1 with
    | head =>
      cases h2 with
      | head => rfl
      | tail _ h2 => exact absurd (List.mem_map.mpr ⟨(k, b2), h2, rfl⟩) hnd.1
    | tail _ h1 =>
      cases h2 with
      | head => exact absurd (List.mem_map.mpr ⟨(k, b1), h1, rfl⟩) hnd.1
      | tail _ h2 => exact ih hnd.2 h1 h2

theorem countP_flatMap {α β : Type} (l : List α) (f : α → List β) (p : β → Bool) :
    (l.flatMap f).countP p = (l.map fun x => (f x).countP p).sum := by
  induction l with
  | nil => simp
  | cons x xs ih => simp [List.flatMap_cons, List.countP_append, ih]

theorem countP_flatMap_single {β : Type} {F : Type} (l : List (String × β))
    (g : String → β → List F) (p : F → Bool) (k : String) (b : β)
    (hnd : (l.map Prod.fst).Nodup) (hmem : (k, b) ∈ l)
    (hother : ∀ k2 b2, (k2, b2) ∈ l → k2 ≠ k → (g k2 b2).countP p = 0) :
    (l.flatMap fun q => g q.1 q.2).countP p = (g k b).countP p := by
  induction l with
  | nil => cases hmem
  | cons x xs ih =>
    simp only [List.map_cons, List.nodup_cons] at hnd
    rw [List.flatMap_cons, List.countP_append]
    cases hmem with
    | head =>
      have hxs : (xs.flatMap fun q => g q.1 q.2).countP p = 0 := by
        rw [countP_flatMap]
        apply List.sum_eq_zero
        intro y hy
        obtain ⟨q, hq, rfl⟩ := List.mem_map.mp hy
        apply hother q.1 q.2 (List.mem_cons_of_mem _ (by simpa using hq))
        intro hk
        exact hnd.1 (List.mem_map.mpr ⟨q, hq, hk⟩)
      simp [hxs]
    | tail _ hmem2 =>
      have hx : (g x.1 x.2).countP p = 0 := by
        apply hother x.1 x.2 (by simp)
        intro hk
        apply hnd.1
        rw [hk]
        exact List.mem_map.mpr ⟨(k, b), hmem2, rfl⟩
      rw [hx, ih hnd.2 hmem2
        (fun k2 b2 hm hk => hother k2 b2 (List.mem_cons_of_mem _ hm) hk)]
      omega

/-- C3: when the same child name appears both among an object entry's
methods and its static methods, the consistency check emits exactly one
duplicate-method error for that entry, and every duplicate-method error for
that entry lists the duplicated name. -/
theorem duplicateChildNameDetected (cats : List (String × JSCategory))
    (objs : List (String × JSObject)) (kws : List (String × JSKeyword))
    (objKey name : String) (obj : JSObject)
    (hnd : (objs.map Prod.fst).Nodup) (hmem : (objKey, obj) ∈ objs)
    (hm : name ∈ keysOf (obj.methods.getD []))
    (hs : name ∈ keysOf (obj.staticMethods.getD [])) :
    (validateConsistency cats objs kws).1.countP (isDuplicateFindingFor objKey) = 1 ∧
    ∀ dups, Finding.duplicateMethods objKey dups ∈ (validateConsistency cats objs kws).1 →
      name ∈ dups := by
  have hnameD : name ∈ jsDuplicates
      (keysOf (obj.methods.getD []) ++ keysOf (obj.staticMethods.getD [])) :=
    mem_jsDuplicates_of_mem_both hm hs
  have hDpos : 0 < (jsDuplicates
      (keysOf (obj.methods.getD []) ++ keysOf (obj.staticMethods.getD []))).length :=
    List.length_pos.mpr (List.ne_nil_of_mem hnameD)
  unfold validateConsistency
  dsimp only
  constructor
  · rw [List.countP_append]
    have h1 : ((cats.flatMap fun p => consistencyDanglingEntry objs kws p.1 p.2).countP
        (isDuplicateFindingFor objKey)) = 0 := by
      apply List.countP_eq_zero.mpr
      intro f hf
      simp only [List.mem_flatMap, consistencyDanglingEntry, List.mem_append,
        List.mem_map] at hf
      obtain ⟨q, _, hf⟩ := hf
      rcases hf with ⟨n, _, rfl⟩ | ⟨n, _, rfl⟩ <;> simp [isDuplicateFindingFor]
    have h2 : ((objs.flatMap fun p => consistencyDupEntry p.1 p.2).countP
        (isDuplicateFindingFor objKey)) = 1 := by
      rw [countP_flatMap_single objs consistencyDupEntry
        (isDuplicateFindingFor objKey) objKey obj hnd hmem ?hother]
      case hother =>
        intro k2 b2 _ hk2
        unfold consistencyDupEntry
        dsimp only
        split
        · simp [isDuplicateFindingFor, hk2]
        · simp
      unfold consistencyDupEntry
      dsimp only
      rw [if_pos hDpos]
      simp [isDuplicateFindingFor]
    rw [h1, h2]
  · intro dups h
    rw [List.mem_append] at h
    rcases h with h | h
    · exfalso
      simp only [List.mem_flatMap, consistencyDanglingEntry, List.mem_append,
        List.mem_map] at h
      obtain ⟨q, _, h⟩ := h
      rcases h with ⟨n, _, h⟩ | ⟨n, _, h⟩ <;> cases h
    · simp only [List.mem_flatMap] at h
      obtain ⟨q, hq, hin⟩ := h
      unfold consistencyDupEntry at hin
      dsimp only at hin
      revert hin
      split
      · intro hin
        simp only [List.mem_singleton, Finding.duplicateMethods.injEq] at hin
        obtain ⟨hkey, hdup⟩ := hin
        have hq2 : (objKey, q.2) ∈ objs := by
          rw [hkey]
          exact hq
        have hobj : q.2 = obj := lookup_key_unique hnd hq2 hmem
        rw [hdup, hobj]
        exact hnameD
      · intro hin
        cases hin

/-- Witness for C3 on the fixture with the child name `both` in both maps
of entry `Dup`. -/
theorem duplicateChildNameDetected_witness :
    (validateConsistency [] c3Objects []).1.countP (isDuplicateFindingFor "Dup") = 1 :=
  (duplicateChildNameDetected [] c3Objects [] "Dup" "both" c3Object
    (by decide) (by decide) (by decide) (by decide)).1

/-- C4: for every category entry and every name, the consistency check
contains the dangling-object-reference error for that category and name
exactly once when the name is listed in the category's member-objects map
but absent from the objects collection, and never otherwise; likewise for
member keywords against the keywords collection. -/
theorem danglingReferenceErrors (cats : List (String × JSCategory))
    (objs : List (String × JSObject)) (kws : List (String × JSKeyword))
    (catKey name : String) (cat : JSCategory)
    (hnd : (cats.map Prod.fst).Nodup) (hmem : (catKey, cat) ∈ cats)
    (hobj : (cat.objects.getD []).Nodup) (hkw : (cat.keywords.getD []).Nodup) :
    ((validateConsistency cats objs kws).1.count (Finding.danglingObjectRef catKey name) =
      if name ∈ cat.objects.getD [] ∧ (lookupMap objs name).isNone then 1 else 0) ∧
    ((validateConsistency cats objs kws).1.count (Finding.danglingKeywordRef catKey name) =
      if name ∈ cat.keywords.getD [] ∧ (lookupMap kws name).isNone then 1 else 0) := by
  have hcp : ∀ (l : List Finding) (x : Finding), l.count x = l.countP (· == x) :=
    fun l x => rfl
  have hdups : ∀ x : Finding, (∀ k d, x ≠ Finding.duplicateMethods k d) →
      (objs.flatMap fun p => consistencyDupEntry p.1 p.2).count x = 0 := by
    intro x hx
    apply List.count_eq_zero_of_not_mem
    intro hmem2
    simp only [List.mem_flatMap] at hmem2
    obtain ⟨q, _, hin⟩ := hmem2
    unfold consistencyDupEntry at hin
    dsimp only at hin
    revert hin
    split
    · intro hin
      simp only [List.mem_singleton] at hin
      exact hx _ _ hin
    · intro hin
      cases hin
  unfold validateConsistency
  dsimp only
  constructor
  · rw [List.count_append, hdups _ (by intro k d h; cases h), Nat.add_zero, hcp]
    rw [countP_flatMap_single cats (consistencyDanglingEntry objs kws) _ catKey cat
      hnd hmem ?hother1]
    case hother1 =>
      intro k2 b2 _ hk2
      apply List.countP_eq_zero.mpr
      intro f hf
      simp only [consistencyDanglingEntry, List.mem_append, List.mem_map] at hf
      rcases hf with ⟨n, _, rfl⟩ | ⟨n, _, rfl⟩ <;> simp [hk2]
    unfold consistencyDanglingEntry
    rw [List.countP_append]
    have hkwpart : (((cat.keywords.getD []).filter fun n =>
        (lookupMap kws n).isNone).map fun n => Finding.danglingKeywordRef catKey n).countP
        (· == Finding.danglingObjectRef catKey name) = 0 := by
      apply List.countP_eq_zero.mpr
      intro f hf
      simp only [List.mem_map] at hf
      obtain ⟨n, _, rfl⟩ := hf
      simp
    rw [hkwpart, Nat.add_zero, ← hcp]
    have hinj : Function.Injective (fun n => Finding.danglingObjectRef catKey n) := by
      intro a b h
      injection h
    rw [List.count_map_of_injective _ _ hinj]
    by_cases hc : name ∈ cat.objects.getD [] ∧ (lookupMap objs name).isNone
    · rw [if_pos hc]
      apply List.count_eq_one_of_mem (hobj.filter _)
      apply List.mem_filter.mpr
      exact ⟨hc.1, by simpa using hc.2⟩
    · rw [if_neg hc]
      apply List.count_eq_zero_of_not_mem
      intro hmf
      apply hc
      have hsplit := List.mem_filter.mp hmf
      exact ⟨hsplit.1, by simpa using hsplit.2⟩
  · rw [List.count_append, hdups _ (by intro k d h; cases h), Nat.add_zero, hcp]
    rw [countP_flatMap_single cats (consistencyDanglingEntry objs kws) _ catKey cat
      hnd hmem ?hother2]
    case hother2 =>
      intro k2 b2 _ hk2
      apply List.countP_eq_zero.mpr
      intro f hf
      simp only [consistencyDanglingEntry, List.mem_append, List.mem_map] at hf
      rcases hf with ⟨n, _, rfl⟩ | ⟨n, _, rfl⟩ <;> simp [hk2]
    unfold consistencyDanglingEntry
    rw [List.countP_append]
    have hobjpart : (((cat.objects.getD []).filter fun n =>
        (lookupMap objs n).isNone).map fun n => Finding.danglingObjectRef catKey n).countP
        (· == Finding.danglingKeywordRef catKey name) = 0 := by
      apply List.countP_eq_zero.mpr
      intro f hf
      simp only [List.mem_map] at hf
      obtain ⟨n, _, rfl⟩ := hf
      simp
    rw [hobjpart, Nat.zero_add, ← hcp]
    have hinj : Function.Injective (fun n => Finding.danglingKeywordRef catKey n) := by
      intro a b h
      injection h
    rw [List.count_map_of_injective _ _ hinj]
    by_cases hc : name ∈ cat.keywords.getD [] ∧ (lookupMap kws name).isNone
    · rw [if_pos hc]
      apply List.count_eq_one_of_mem (hkw.filter _)
      apply List.mem_filter.mpr
      exact ⟨hc.1, by simpa using hc.2⟩
    · rw [if_neg hc]
      apply List.count_eq_zero_of_not_mem
      intro hmf
      apply hc
      have hsplit := List.mem_filter.mp hmf
      exact ⟨hsplit.1, by simpa using hsplit.2⟩

/-- Witness for C4 on the fixture category `Core` referencing the missing
object name `Widget`. -/
theorem danglingReferenceErrors_witness :
    (validateConsistency c4Cats [] []).1.count
      (Finding.danglingObjectRef "Core" "Widget") = 1 := by
  have h := (danglingReferenceErrors c4Cats [] [] "Core" "Widget" c4Category
    (by decide) (by decide) (by decide) (by decide)).1
  simpa using h

/-- C8 counterexample: the JavaScript suggestion engine keeps collection
iteration order and never sorts by score.  Against the query `hello`, the
fixture returns `hezzo` (score 3/5) before `hellz` (score 4/5), so the
best-scoring match is not first. -/
theorem suggestionsNotSortedByScore :
    findSimilarObjects c8Objects "hello" = ["hezzo", "hellz"] ∧
    calculateSimilarity (jsToLowerCase "hello") (jsToLowerCase "hezzo") <
      calculateSimilarity (jsToLowerCase "hello") (jsToLowerCase "hellz") := by
  constructor
  · unfold findSimilarObjects
    simp only [decide_calcSim]
    decide
  · have e1 : jsToLowerCase "hello" = "hello" := rfl
    have e2 : jsToLowerCase "hezzo" = "hezzo" := rfl
    have e3 : jsToLowerCase "hellz" = "hellz" := rfl
    rw [e1, e2, e3]
    have h1 : calculateSimilarity "hello" "hezzo" =
        if max "hello".length "hezzo".length = 0 then 1
        else ((countPositionalMatches "hello".data "hezzo".data : Nat) : ℚ) /
          ((max "hello".length "hezzo".length : Nat) : ℚ) := rfl
    have h2 : calculateSimilarity "hello" "hellz" =
        if max "hello".length "hellz".length = 0 then 1
        else ((countPositionalMatches "hello".data "hellz".data : Nat) : ℚ) /
          ((max "hello".length "hellz".length : Nat) : ℚ) := rfl
    rw [h1, h2, show max "hello".length "hezzo".length = 5 from rfl,
      show max "hello".length "hellz".length = 5 from rfl,
      show countPositionalMatches "hello".data "hezzo".data = 3 from rfl,
      show countPositionalMatches "hello".data "hellz".data = 4 from rfl]
    norm_num

/-- C8 amended: each suggestion routine returns at most its cap (3 for the
JavaScript object/method/keyword helpers, 5 for the HTML and CSS helpers);
the JavaScript and HTML routines keep collection iteration order (their
output is a sublist of the scanned key list), and the CSS routine is the
only one that sorts, by ascending edit distance with ties kept in iteration
order. -/
theorem suggestionBoundsAndOrder :
    (∀ (objs : List (String × JSObject)) (q : String),
      (findSimilarObjects objs q).length ≤ 3 ∧
      (findSimilarObjects objs q).Sublist (keysOf objs)) ∧
    (∀ (ms sms : List (String × JSChild)) (q : String),
      (findSimilarMethods ms sms q).length ≤ 3 ∧
      (findSimilarMethods ms sms q).Sublist (keysOf ms ++ keysOf sms)) ∧
    (∀ (kws : List (String × JSKeyword)) (q : String),
      (findSimilarKeywords kws q).length ≤ 3) ∧
    (∀ (idx : HTMLIndex) (q : String),
      (htmlGetSuggestions idx q).length ≤ 5 ∧
      (htmlGetSuggestions idx q).Sublist (keysOf idx.elements)) ∧
    (∀ (pcs : List (String × List (String × CSSProp))) (q : String),
      (cssFindSimilarProperties pcs q).length ≤ 5 ∧
      (cssFindSimilarRecords pcs q).Pairwise (fun a b => a.distance ≤ b.distance)) := by
  have htake : ∀ {α : Type} (n : Nat) (l : List α), (l.take n).length ≤ n := by
    intro α n l
    simp only [List.length_take]
    exact min_le_left _ _
  refine ⟨?_, ?_, ?_, ?_, ?_⟩
  · intro objs q
    exact ⟨htake 3 _, (List.take_sublist _ _).trans (List.filter_sublist _)⟩
  · intro ms sms q
    exact ⟨htake 3 _, (List.take_sublist _ _).trans (List.filter_sublist _)⟩
  · intro kws q
    exact htake 3 _
  · intro idx q
    exact ⟨htake 5 _, (List.take_sublist _ _).trans (List.filter_sublist _)⟩
  · intro pcs q
    constructor
    · unfold cssFindSimilarProperties
      rw [List.length_map]
      exact htake 5 _
    · unfold cssFindSimilarRecords
      apply List.Pairwise.sublist (List.take_sublist _ _)
      have hsorted := @List.sorted_mergeSort CSSSuggestionRec
        (fun a b => decide (a.distance ≤ b.distance))
        (by intro a b c h1 h2; simp only [decide_eq_true_eq] at h1 h2 ⊢; omega)
        (by intro a b; simp only [Bool.or_eq_true, decide_eq_true_eq]; omega)
        (cssSuggestionPool pcs q)
      exact hsorted.imp fun h => by simpa using h

theorem levIdx_zero_left (a b : List Char) (j : Nat) : levIdx a b 0 j = j := by
  simp [levIdx]

theorem levIdx_zero_right (a b : List Char) (i : Nat) : levIdx a b i 0 = i := by
  cases i <;> simp [levIdx]

theorem levIdx_succ_succ (a b : List Char) (i j : Nat) :
    levIdx a b (i + 1) (j + 1) =
      if a.getD i default = b.getD j default then levIdx a b i j
      else 1 + min (levIdx a b i j) (min (levIdx a b (i + 1) j) (levIdx a b i (j + 1))) := by
  rw [levIdx.eq_def]

theorem levIdx_symm (a b : List Char) : ∀ i j, levIdx a b i j = levIdx b a j i := by
  have H : ∀ s i j, i + j ≤ s → levIdx a b i j = levIdx b a j i := by
    intro s
    induction s with
    | zero =>
      intro i j h
      have hi : i = 0 := by omega
      have hj : j = 0 := by omega
      subst hi
      subst hj
      rw [levIdx_zero_left, levIdx_zero_left]
    | succ s ih =>
      intro i j h
      rcases i with _ | i
      · rw [levIdx_zero_left, levIdx_zero_right]
      · rcases j with _ | j
        · rw [levIdx_zero_right, levIdx_zero_left]
        · rw [levIdx_succ_succ, levIdx_succ_succ]
          by_cases hc : a.getD i default = b.getD j default
          · rw [if_pos hc, if_pos hc.symm]
            exact ih i j (by omega)
          · rw [if_neg hc, if_neg fun hcc => hc hcc.symm]
            rw [ih i j (by omega), ih (i + 1) j (by omega), ih i (j + 1) (by omega)]
            omega
  intro i j
  exact H (i + j) i j (le_refl _)

theorem htmlLevRowAux_spec (a b : List Char) (k : Nat) :
    ∀ (n j : Nat), j + n = b.length →
      htmlLevRowAux (a.getD k default) (b.drop j)
        ((List.range n).map fun t => levIdx a b k (j + 1 + t))
        (levIdx a b k j) (levIdx a b (k + 1) j) =
      (List.range n).map fun t => levIdx a b (k + 1) (j + 1 + t) := by
  intro n
  induction n with
  | zero =>
    intro j hj
    rw [List.drop_eq_nil_of_le (by omega)]
    simp [htmlLevRowAux]
  | succ n ih =>
    intro j hj
    have hjb : j < b.length := by omega
    rw [List.drop_eq_getElem_cons hjb, List.range_succ_eq_map]
    simp only [List.map_cons, List.map_map, Nat.add_zero]
    rw [htmlLevRowAux]
    have hchar : b[j] = b.getD j default := (List.getD_eq_getElem b default hjb).symm
    have hcell : (if b[j] = a.getD k default then levIdx a b k j
        else min (levIdx a b k j + 1)
          (min (levIdx a b (k + 1) j + 1) (levIdx a b k (j + 1) + 1))) =
        levIdx a b (k + 1) (j + 1) := by
      rw [hchar, levIdx_succ_succ]
      by_cases hc : a.getD k default = b.getD j default
      · rw [if_pos hc, if_pos hc.symm]
      · rw [if_neg hc, if_neg fun hcc => hc hcc.symm]
        omega
    rw [hcell]
    have hmap1 : ((List.range n).map fun t => levIdx a b k (j + 1 + (t + 1))) =
        (List.range n).map fun t => levIdx a b k (j + 1 + 1 + t) := by
      apply List.map_congr_left
      intro t _
      congr 1
      omega
    have hmap2 : ((List.range n).map fun t => levIdx a b (k + 1) (j + 1 + (t + 1))) =
        (List.range n).map fun t => levIdx a b (k + 1) (j + 1 + 1 + t) := by
      apply List.map_congr_left
      intro t _
      congr 1
      omega
    simp only [Function.comp_def]
    rw [hmap1, hmap2]
    congr 1
    exact ih (j + 1) (by omega)

theorem htmlLevNextRow_spec (a b : List Char) (k : Nat) :
    htmlLevNextRow b (a.getD k default)
      ((List.range (b.length + 1)).map fun j => levIdx a b k j) =
    (List.range (b.length + 1)).map fun j => levIdx a b (k + 1) j := by
  rw [List.range_succ_eq_map]
  simp only [List.map_cons, List.map_map, Function.comp_def]
  rw [htmlLevNextRow]
  rw [levIdx_zero_right a b k]
  have hmap1 : ((List.range b.length).map fun t => levIdx a b k (t + 1)) =
      (List.range b.length).map fun t => levIdx a b k (0 + 1 + t) := by
    apply List.map_congr_left
    intro t _
    congr 1
    omega
  have hmap2 : ((List.range b.length).map fun t => levIdx a b (k + 1) (t + 1)) =
      (List.range b.length).map fun t => levIdx a b (k + 1) (0 + 1 + t) := by
    apply List.map_congr_left
    intro t _
    congr 1
    omega
  rw [hmap1, hmap2, show levIdx a b (k + 1) 0 = k + 1 from levIdx_zero_right a b (k + 1)]
  congr 1
  have h := htmlLevRowAux_spec a b k b.length 0 (by omega)
  rw [List.drop_zero] at h
  rw [show levIdx a b k 0 = k from levIdx_zero_right a b k] at h
  rw [show levIdx a b (k + 1) 0 = k + 1 from levIdx_zero_right a b (k + 1)] at h
  exact h

theorem htmlLev_fold_spec (a b : List Char) :
    ∀ (n k : Nat), k + n = a.length →
      ((a.drop k).foldl (fun prev c2 => htmlLevNextRow b c2 prev)
        ((List.range (b.length + 1)).map fun j => levIdx a b k j)) =
      (List.range (b.length + 1)).map fun j => levIdx a b a.length j := by
  intro n
  induction n with
  | zero =>
    intro k hk
    rw [List.drop_eq_nil_of_le (by omega), List.foldl_nil]
    have : k = a.length := by omega
    rw [this]
  | succ n ih =>
    intro k hk
    have hka : k < a.length := by omega
    rw [List.drop_eq_getElem_cons hka, List.foldl_cons]
    rw [show a[k] = a.getD k default from (List.getD_eq_getElem a default hka).symm]
    rw [htmlLevNextRow_spec a b k]
    exact ih (k + 1) (by omega)

theorem htmlLev_eq_levIdx (str1 str2 : List Char) :
    htmlLevenshteinDistance str1 str2 = levIdx str2 str1 str2.length str1.length := by
  unfold htmlLevenshteinDistance
  have hinit : List.range (str1.length + 1) =
      (List.range (str1.length + 1)).map fun j => levIdx str2 str1 0 j := by
    rw [show (fun j => levIdx str2 str1 0 j) = fun j : Nat => j from
      funext (levIdx_zero_left str2 str1)]
    simp
  rw [hinit]
  have h := htmlLev_fold_spec str2 str1 str2.length 0 (by omega)
  rw [List.drop_zero] at h
  rw [h, List.range_succ, List.map_append, List.map_cons, List.map_nil,
    List.getLastD_concat]

theorem cssLevRowAux_eq_html (c2 : Char) :
    ∀ (cs : List Char) (ps : List Nat) (d l : Nat),
      cssLevRowAux c2 cs ps d l = htmlLevRowAux c2 cs ps d l := by
  intro cs
  induction cs with
  | nil =>
    intro ps d l
    simp [cssLevRowAux, htmlLevRowAux]
  | cons c cs ih =>
    intro ps d l
    cases ps with
    | nil => simp [cssLevRowAux, htmlLevRowAux]
    | cons up ps => simp [cssLevRowAux, htmlLevRowAux, ih]

theorem cssLev_eq_htmlLev (s1 s2 : List Char) :
    cssLevenshteinDistance s1 s2 = htmlLevenshteinDistance s1 s2 := by
  unfold cssLevenshteinDistance htmlLevenshteinDistance
  have hfun : (fun (prev : List Nat) (c2 : Char) => cssLevNextRow s1 c2 prev) =
      fun prev c2 => htmlLevNextRow s1 c2 prev := by
    funext prev c2
    unfold cssLevNextRow htmlLevNextRow
    cases prev with
    | nil => rfl
    | cons p0 pt =>
      dsimp only
      rw [cssLevRowAux_eq_html]
  rw [hfun]

/-- C10: the Levenshtein routine embedded in the HTML validator and the one
embedded in the CSS validator compute the same function, and that function
is the classic Wagner-Fischer edit distance with unit-cost insertions,
deletions and substitutions. -/
theorem levenshteinImplementationsAgree (s1 s2 : List Char) :
    cssLevenshteinDistance s1 s2 = htmlLevenshteinDistance s1 s2 ∧
    htmlLevenshteinDistance s1 s2 = levSpec s1 s2 := by
  refine ⟨cssLev_eq_htmlLev s1 s2, ?_⟩
  rw [htmlLev_eq_levIdx]
  unfold levSpec
  exact levIdx_symm s2 s1 s2.length s1.length
